import Mathlib

/-!
Shallow embedding of the RAGE9 engine core (src/main.cpp) in Lean 4.

Real arithmetic (C++ `float`/`double`) is modelled exactly over `ℚ`;
machine `int` is modelled as `ℤ` with C++ truncated `%` (`Int.tmod`).
The trigonometric initial velocity of an emitted particle
(`cos(ang)*sp`, `sin(ang)*sp` on a random angle) and the `rand()`
stream are abstracted as explicit input streams, since they do not
affect liveness accounting: what matters is that an emitted particle
gets `age = 0` and `life = 300 + rand() % 800 ≥ 300`.
-/

namespace RAGE9

/-- `struct Transform` (main.cpp:142): position, rotation, scale. -/
structure Transform where
  x : ℚ
  y : ℚ
  rot : ℚ
  sx : ℚ
  sy : ℚ
deriving DecidableEq

/-- `struct Physics` (main.cpp:146). -/
structure Physics where
  vx : ℚ
  vy : ℚ
  ax : ℚ
  ay : ℚ
  mass : ℚ
  gravity : ℚ
  onGround : Bool
deriving DecidableEq

/-- `struct Collider` (main.cpp:147). -/
structure Collider where
  w : ℚ
  h : ℚ
  offx : ℚ
  offy : ℚ
  isStatic : Bool
deriving DecidableEq

/-- `struct Animation` (main.cpp:144); `frameCount` and `current` are C++ `int`. -/
structure Animation where
  frameCount : ℤ
  frameTime : ℚ
  loop : Bool
  current : ℤ
  timer : ℚ
deriving DecidableEq

/-- `struct Particle` (main.cpp:240). -/
structure Particle where
  x : ℚ
  y : ℚ
  vx : ℚ
  vy : ℚ
  life : ℚ
  age : ℚ
deriving DecidableEq

/-- One entity of the `World` (main.cpp:152), restricted to the component
kinds the simulation core reads: `"transform"`, `"physics"`, `"collider"`
and the `Animation` part of an `AnimatedSprite` under `"sprite"`.
Entity ids are positions in the store's entity list. -/
structure Entity where
  transform : Option Transform
  physics : Option Physics
  collider : Option Collider
  anim : Option Animation
deriving DecidableEq

/- ------------------------- Particle system ------------------------- -/

/-- `ParticleSystem::findFree` (main.cpp:248): index of the first dead
slot (`age >= life`), scanning from the front. -/
def findFree : List Particle → Option ℕ
  | [] => none
  | p :: ps => if p.life ≤ p.age then some 0 else (findFree ps).map (· + 1)

/-- A slot is live when `age < life` (cf. main.cpp:245-246). -/
def isLive (p : Particle) : Bool := decide (p.age < p.life)

/-- Number of live slots in a pool. -/
def countLive (pool : List Particle) : ℕ := pool.countP isLive

/-- Number of dead slots in a pool. -/
def countDead (pool : List Particle) : ℕ := pool.countP (fun p => !isLive p)

/-- The particle written by one iteration of `ParticleSystem::emit`
(main.cpp:244). `vel k` abstracts `(cos(ang)*sp, sin(ang)*sp)` for the
`k`-th emission; `rnd k` abstracts the `rand()` call in
`p.life = 300 + rand()%800`. -/
def emitParticle (vel : ℕ → ℚ × ℚ) (rnd : ℕ → ℕ) (x y : ℚ) (k : ℕ) : Particle :=
  { x := x, y := y, vx := (vel k).1, vy := (vel k).2,
    life := 300 + ((rnd k % 800 : ℕ) : ℚ), age := 0 }

/-- `ParticleSystem::emit(x, y, n)` (main.cpp:244): `n` times, find the
first free slot and overwrite it with a fresh particle; stop early
(`break`) when no free slot exists. `k` counts emissions already done
(indexing into the abstract random streams). -/
def emit (vel : ℕ → ℚ × ℚ) (rnd : ℕ → ℕ) (x y : ℚ) :
    ℕ → ℕ → List Particle → List Particle
  | 0, _, pool => pool
  | n + 1, k, pool =>
    match findFree pool with
    | none => pool
    | some idx => emit vel rnd x y n (k + 1) (pool.set idx (emitParticle vel rnd x y k))

/-- One slot's update in `ParticleSystem::update(dt)` (main.cpp:245):
live slots age by `dt*1000`, gain `300*dt` of downward velocity and
integrate position; dead slots are untouched. The position integration
uses the already-updated `vy`, as in the source's in-place mutation order. -/
def updateParticle (dt : ℚ) (p : Particle) : Particle :=
  if p.age < p.life then
    { p with age := p.age + dt * 1000, vy := p.vy + 300 * dt,
             x := p.x + p.vx * dt, y := p.y + (p.vy + 300 * dt) * dt }
  else p

/-- `ParticleSystem::update(dt)` (main.cpp:245) over the whole pool. -/
def updateParticles (dt : ℚ) (pool : List Particle) : List Particle :=
  pool.map (updateParticle dt)

/- ------------------------- Animation ------------------------- -/

/-- The animation advance of `Engine::fixedUpdate` (main.cpp:350-351):
`timer += dt; if (timer >= frameTime) { timer = 0; current = (current + 1) % max(1, frameCount); }`.
C++ `%` on `int` is truncated division remainder, i.e. `Int.tmod`. -/
def animStep (dt : ℚ) (a : Animation) : Animation :=
  let t := a.timer + dt
  if a.frameTime ≤ t then
    { a with timer := 0, current := (a.current + 1).tmod (max 1 a.frameCount) }
  else
    { a with timer := t }

/- ------------------------- Collision engine ------------------------- -/

/-- `struct AABB` (main.cpp:366). -/
structure AABB where
  x : ℚ
  y : ℚ
  w : ℚ
  h : ℚ
deriving DecidableEq

/-- AABB of an entity, as built in `Engine::collisionSolve`
(main.cpp:357-358): `{x - w/2 + offx, y - h/2 + offy, w, h}`. -/
def mkAABB (t : Transform) (c : Collider) : AABB :=
  { x := t.x - c.w / 2 + c.offx, y := t.y - c.h / 2 + c.offy, w := c.w, h := c.h }

/-- `Engine::aabbIntersect` (main.cpp:367). -/
def aabbIntersect (a b : AABB) : Bool :=
  !(decide (a.x + a.w < b.x) || decide (b.x + b.w < a.x) ||
    decide (a.y + a.h < b.y) || decide (b.y + b.h < a.y))

/-- X-axis overlap of `Engine::resolveCollision` (main.cpp:370):
`(aa.w+bb.w)/2 - |dx|` where `dx` is the center-to-center X delta. -/
def overlapX (aa bb : AABB) : ℚ :=
  (aa.w + bb.w) / 2 - |bb.x + bb.w * (1/2) - (aa.x + aa.w * (1/2))|

/-- Y-axis overlap of `Engine::resolveCollision` (main.cpp:370). -/
def overlapY (aa bb : AABB) : ℚ :=
  (aa.h + bb.h) / 2 - |bb.y + bb.h * (1/2) - (aa.y + aa.h * (1/2))|

/-- Result of resolving one pair: the two entities' updated transforms
and physics components. -/
structure RPair where
  atN : Transform
  apN : Option Physics
  btN : Transform
  bpN : Option Physics
deriving DecidableEq

/-- Body of `Engine::resolveCollision` (main.cpp:369-380) after the
component lookups: positional correction along the axis of smaller
overlap (X iff `overlapX < overlapY`), velocity zeroing on that axis,
and ground-flag assignment in the Y branch. `sign` is `dx>0 ? 1 : -1`
(resp. `dy`). -/
def resolvePair (ac : Collider) (ta : Transform) (ap : Option Physics)
    (bc : Collider) (tb : Transform) (bp : Option Physics)
    (aa bb : AABB) : RPair :=
  let axc := aa.x + aa.w * (1/2)
  let ayc := aa.y + aa.h * (1/2)
  let bxc := bb.x + bb.w * (1/2)
  let byc := bb.y + bb.h * (1/2)
  let dx := bxc - axc
  let dy := byc - ayc
  let oX := (aa.w + bb.w) / 2 - |dx|
  let oY := (aa.h + bb.h) / 2 - |dy|
  if oX < oY then
    let sign : ℚ := if 0 < dx then 1 else -1
    let ta' :=
      if !ac.isStatic && !bc.isStatic then { ta with x := ta.x - sign * oX * (1/2) }
      else if !ac.isStatic then { ta with x := ta.x - sign * oX }
      else ta
    let tb' :=
      if !ac.isStatic && !bc.isStatic then { tb with x := tb.x + sign * oX * (1/2) }
      else if !ac.isStatic then tb
      else if !bc.isStatic then { tb with x := tb.x + sign * oX }
      else tb
    { atN := ta', apN := ap.map (fun p => { p with vx := 0 }),
      btN := tb', bpN := bp.map (fun p => { p with vx := 0 }) }
  else
    let sign : ℚ := if 0 < dy then 1 else -1
    let ta' :=
      if !ac.isStatic && !bc.isStatic then { ta with y := ta.y - sign * oY * (1/2) }
      else if !ac.isStatic then { ta with y := ta.y - sign * oY }
      else ta
    let tb' :=
      if !ac.isStatic && !bc.isStatic then { tb with y := tb.y + sign * oY * (1/2) }
      else if !ac.isStatic then tb
      else if !bc.isStatic then { tb with y := tb.y + sign * oY }
      else tb
    { atN := ta',
      apN := ap.map (fun p => { p with onGround := if 0 < sign then true else p.onGround, vy := 0 }),
      btN := tb',
      bpN := bp.map (fun p => { p with onGround := if sign < 0 then true else p.onGround, vy := 0 }) }

/-- `Engine::resolveCollision(a, b, aa, bb)` (main.cpp:369) at the world
level: look the components of entities `i` and `j` up again (returning
unchanged when a collider or transform is missing, as the early
`return` does) and write the resolved pair back. -/
def resolveCollision (i j : ℕ) (aa bb : AABB) (w : List Entity) : List Entity :=
  match w[i]?, w[j]? with
  | some ea, some eb =>
    match ea.collider, ea.transform, eb.collider, eb.transform with
    | some ac, some ta, some bc, some tb =>
      let r := resolvePair ac ta ea.physics bc tb eb.physics aa bb
      (w.set i { ea with transform := some r.atN, physics := r.apN }).set j
        { eb with transform := some r.btN, physics := r.bpN }
    | _, _, _, _ => w
  | _, _ => w

/-- Inner loop body of `Engine::collisionSolve` (main.cpp:358-362):
build `bb` from entity `j`'s *current* components, and resolve when it
intersects the outer snapshot `aa` (which is *not* refreshed by earlier
resolutions of the same outer iteration, exactly as in the source). -/
def innerStep (i : ℕ) (aa : AABB) (w : List Entity) (j : ℕ) : List Entity :=
  match w[j]? with
  | some eb =>
    match eb.collider, eb.transform with
    | some bc, some tb =>
      let bb := mkAABB tb bc
      if aabbIntersect aa bb then resolveCollision i j aa bb w else w
    | _, _ => w
  | none => w

/-- Outer loop body of `Engine::collisionSolve` (main.cpp:356-363):
skip entities missing a collider or transform, snapshot `aa` once, then
scan all later entities. -/
def outerStep (w : List Entity) (i : ℕ) : List Entity :=
  match w[i]? with
  | some ea =>
    match ea.collider, ea.transform with
    | some ac, some ta =>
      let aa := mkAABB ta ac
      (List.range' (i + 1) (w.length - (i + 1))).foldl (innerStep i aa) w
    | _, _ => w
  | none => w

/-- `Engine::collisionSolve` (main.cpp:356-364): the naive `O(n²)`
all-pairs pass in entity order. -/
def collisionSolve (w : List Entity) : List Entity :=
  (List.range w.length).foldl outerStep w

/-- The `onGround` flag of entity `k` of a world (false when the entity
or its physics component is absent). -/
def onGroundAt (w : List Entity) (k : ℕ) : Bool :=
  match w[k]? with
  | some e =>
    match e.physics with
    | some p => p.onGround
    | none => false
  | none => false

/- ------------------------- Fixed update & main loop ------------------------- -/

/-- Physics integration of `Engine::fixedUpdate` (main.cpp:345-346) for
one entity with both Physics and Transform:
`vy += gravity*dt; vx += ax*dt; vy += ay*dt; x += vx*dt; y += vy*dt`,
positions integrating the already-updated velocities. -/
def integrate (dt : ℚ) (e : Entity) : Entity :=
  match e.physics, e.transform with
  | some p, some t =>
    let vy1 := p.vy + p.gravity * dt + p.ay * dt
    let vx1 := p.vx + p.ax * dt
    { e with physics := some { p with vx := vx1, vy := vy1 },
             transform := some { t with x := t.x + vx1 * dt, y := t.y + vy1 * dt } }
  | _, _ => e

/-- Animation advance of `Engine::fixedUpdate` (main.cpp:350-351) for
one entity, applied when its `"sprite"` is an `AnimatedSprite`. -/
def animPhase (dt : ℚ) (e : Entity) : Entity :=
  match e.anim with
  | some a => { e with anim := some (animStep dt a) }
  | none => e

/-- Engine state visible to the simulation core: the entity world, the
particle pool, the camera position, the time accumulator and the
viewport size (`Engine` fields, main.cpp:415-421). -/
structure EngineState where
  world : List Entity
  particles : List Particle
  camX : ℚ
  camY : ℚ
  accumulator : ℚ
  screenW : ℚ
  screenH : ℚ
deriving DecidableEq

/-- `Engine::fixedUpdate(dt)` (main.cpp:340-354): physics integration,
collision pass, animation advance, particle update, in that order. (The
script phase runs first in the source; the modelled worlds carry no
script components, for which it is the identity.) -/
def fixedUpdate (dt : ℚ) (s : EngineState) : EngineState :=
  let w1 := s.world.map (integrate dt)
  let w2 := collisionSolve w1
  let w3 := w2.map (animPhase dt)
  { s with world := w3, particles := updateParticles dt s.particles }

/-- `fixedDt = 1.0/60.0` (main.cpp:334). -/
def fixedDt : ℚ := 1 / 60

/-- `maxAccum = 0.25` (main.cpp:334). -/
def maxAccum : ℚ := 1 / 4

/-- The accumulator clamp of `Engine::run` (main.cpp:334):
`if (accumulator > maxAccum) accumulator = maxAccum`. -/
def clampAccum (acc : ℚ) : ℚ := if maxAccum < acc then maxAccum else acc

/-- The catch-up loop of `Engine::run` (main.cpp:334):
`while (accumulator >= fixedDt) { fixedUpdate(fixedDt); accumulator -= fixedDt; }`,
returning the number of fixed updates run, the remaining accumulator
and the final state. Generic in the state so the step count can be
studied independently of `fixedUpdate`. -/
def fixedLoop {α : Type} (f : α → α) (acc : ℚ) (s : α) : ℕ × ℚ × α :=
  if h : fixedDt ≤ acc then
    let r := fixedLoop f (acc - fixedDt) (f s)
    (r.1 + 1, r.2)
  else
    (0, acc, s)
termination_by (⌊acc * 60⌋).toNat
decreasing_by
  simp only [fixedDt] at h ⊢
  have h1 : ((acc - 1 / 60) * 60 : ℚ) = acc * 60 - 1 := by ring
  have h2 : (1 : ℚ) ≤ acc * 60 := by linarith
  rw [h1]
  rw [show ((acc * 60 : ℚ) - 1) = acc * 60 - (1 : ℤ) by push_cast; ring]
  rw [Int.floor_sub_int]
  have h3 : (1 : ℤ) ≤ ⌊(acc * 60 : ℚ)⌋ := by
    exact_mod_cast Int.le_floor.mpr (by exact_mod_cast h2)
  omega

/-- `Engine::computeCamera` (main.cpp:399-402): the target follows the
first entity (in store order) with both Physics and Transform; this
finds that entity's transform. -/
def findTracked : List Entity → Option Transform
  | [] => none
  | e :: es =>
    match e.physics, e.transform with
    | some _, some t => some t
    | _, _ => findTracked es

/-- `Engine::computeCamera` (main.cpp:399-402): if no trackable entity
exists, return without moving the camera; otherwise move the camera a
hard-coded factor `0.12` of the way to
`(tr->x - screenW/2, tr->y - screenH/2)`. -/
def computeCamera (w : List Entity) (screenW screenH camX camY : ℚ) : ℚ × ℚ :=
  match findTracked w with
  | none => (camX, camY)
  | some t =>
    let targetX := t.x - screenW / 2
    let targetY := t.y - screenH / 2
    (camX + (targetX - camX) * (12/100), camY + (targetY - camY) * (12/100))

/-- One iteration of the `while (running)` loop of `Engine::run`
(main.cpp:334-336) given the elapsed real time of the frame: add the
frame time to the accumulator, clamp it to `maxAccum`, run the fixed
updates, then render once — of the render phase only `computeCamera`
(main.cpp:385) touches simulation-visible state. -/
def frame (elapsed : ℚ) (s : EngineState) : EngineState :=
  let acc := clampAccum (s.accumulator + elapsed)
  let r := fixedLoop (fixedUpdate fixedDt) acc s
  let s' := r.2.2
  let cam := computeCamera s'.world s'.screenW s'.screenH s'.camX s'.camY
  { s' with accumulator := r.2.1, camX := cam.1, camY := cam.2 }

/-- Number of fixed updates a single frame runs, as a function of the
accumulator entering the frame and the elapsed real time. -/
def frameFixedCount (acc elapsed : ℚ) : ℕ :=
  (fixedLoop (fun u : Unit => u) (clampAccum (acc + elapsed)) ()).1

/- ------------------------- Input map ------------------------- -/

/-- Key scancodes, abstracted to naturals (`SDL_Scancode`). -/
abbrev Scancode := ℕ

/-- `InputMap` (main.cpp:199-208): an `unordered_map<string, SDL_Scancode>`,
modelled as its lookup function. `bind` is `map[action] = key` — each
action holds exactly one key and a rebind overwrites. -/
def bind (m : String → Option Scancode) (action : String) (key : Scancode) :
    String → Option Scancode :=
  fun a => if a = action then some key else m a

/-- `InputMap::actionDown` (main.cpp:202-205): false for an unbound
action, else the down-state of the single bound key. `down` is
`InputState::down` (main.cpp:195), the per-scancode key state. -/
def actionDown (down : Scancode → Bool) (m : String → Option Scancode)
    (action : String) : Bool :=
  match m action with
  | none => false
  | some k => down k

/- ------------------------- Shared helper lemmas ------------------------- -/

/-- A fold preserves any invariant preserved by each step. -/
theorem foldl_invariant {α β : Type} (P : α → Prop) (f : α → β → α)
    (l : List β) (s : α) (hstep : ∀ a b, P a → P (f a b)) (hs : P s) :
    P (l.foldl f s) := by
  induction l generalizing s with
  | nil => exact hs
  | cons b bs ih => exact ih (f s b) (hstep s b hs)

/- ------------------------- Concrete scenario data ------------------------- -/

/-- A 16×16 dynamic collider. -/
def cDyn : Collider := { w := 16, h := 16, offx := 0, offy := 0, isStatic := false }

/-- A 16×16 static collider. -/
def cStat : Collider := { w := 16, h := 16, offx := 0, offy := 0, isStatic := true }

/-- A transform at the origin. -/
def tOrigin : Transform := { x := 0, y := 0, rot := 0, sx := 1, sy := 1 }

/-- A transform at `(8, 8)`: offset diagonally so that the X and Y
overlaps with a body at the origin are equal. -/
def tDiag : Transform := { x := 8, y := 8, rot := 0, sx := 1, sy := 1 }

/-- A physics component moving right and down, not on the ground. -/
def pMove : Physics :=
  { vx := 5, vy := 7, ax := 0, ay := 0, mass := 1, gravity := 900, onGround := false }

/-- A physics component at rest with no gravity. -/
def pStill : Physics :=
  { vx := 0, vy := 0, ax := 0, ay := 0, mass := 1, gravity := 0, onGround := false }

/-- AABB of the origin body. -/
def aaTie : AABB := mkAABB tOrigin cDyn

/-- AABB of the diagonally offset body. -/
def bbTie : AABB := mkAABB tDiag cDyn

/-- A live particle (`age < life`). -/
def pLive : Particle := { x := 0, y := 0, vx := 0, vy := 0, life := 1, age := 0 }

/-- A dead particle (`age ≥ life`). -/
def pDead : Particle := { x := 0, y := 0, vx := 0, vy := 0, life := 1, age := 2 }

/- ------------------------- C8: input action table ------------------------- -/

/-- C8 (counterexample): after `bind("left", A); bind("left", LEFT)`
(scancodes 4 and 80, as in `Engine::init`, main.cpp:281), holding only
key A does *not* make `actionDown("left")` true: the second `bind`
overwrote the first, so the claimed any-bound-key query fails. -/
theorem C8_counterexample :
    (fun k : Scancode => decide (k = 4)) 4 = true ∧
    (fun k : Scancode => decide (k = 4)) 80 = false ∧
    actionDown (fun k : Scancode => decide (k = 4))
      (bind (bind (fun _ => none) "left" 4) "left" 80) "left" = false := by
  refine ⟨by decide, by decide, ?_⟩
  simp [actionDown, bind]

/-- C8 (amended): the action table holds exactly one key per action —
the last binding wins — and `actionDown` queries only that key: after
rebinding an action, `actionDown` equals the down-state of the key
bound last, whatever was bound before. -/
theorem C8_last_binding_wins (m : String → Option Scancode)
    (down : Scancode → Bool) (a : String) (k1 k2 : Scancode) :
    actionDown down (bind (bind m a k1) a k2) a = down k2 := by
  simp [actionDown, bind]

/- ------------------------- C10: dead particles untouched ------------------------- -/

/-- C10: `ParticleSystem::update(dt)` leaves every dead slot
(`age ≥ life`) bitwise unchanged, for every `dt`. -/
theorem C10_update_preserves_dead (dt : ℚ) (pool : List Particle) (i : ℕ)
    (p : Particle) (hp : pool[i]? = some p) (hdead : p.life ≤ p.age) :
    (updateParticles dt pool)[i]? = some p := by
  simp only [updateParticles, List.getElem?_map, hp, Option.map_some']
  have : ¬(p.age < p.life) := not_lt.mpr hdead
  simp [updateParticle, this]

/-- C10 witness: a concrete dead slot survives an update unchanged. -/
theorem C10_witness : (updateParticles 1 [pDead])[0]? = some pDead :=
  C10_update_preserves_dead 1 [pDead] 0 pDead (by simp) (by norm_num [pDead])

/- ------------------------- C9: totality of the frame advance ------------------------- -/

/-- An animation state with a negative current frame index, about to
advance. C++ `int current` admits such states; nothing in
`Engine::fixedUpdate` guards against them. -/
def animNeg : Animation :=
  { frameCount := 4, frameTime := 1/10, loop := true, current := -2, timer := 1/10 }

/-- C9 (counterexample): the frame advance fires on `animNeg`
(`timer + dt ≥ frameTime`) and produces `current = (-2+1) % 4 = -1`
under C++ truncated `%` — outside the claimed interval
`[0, max(1, frameCount))`. -/
theorem C9_counterexample :
    animNeg.frameTime ≤ animNeg.timer + 0 ∧
    (animStep 0 animNeg).current = -1 ∧ (animStep 0 animNeg).current < 0 := by
  refine ⟨by norm_num [animNeg], ?_, ?_⟩ <;>
    · norm_num [animStep, animNeg]
      decide

/-- C9 (amended): for every animation state whose current frame index
is nonnegative — as holds for every state the engine itself creates —
the frame advance is total: the modulo divisor `max 1 frameCount` is
positive even when `frameCount ≤ 0`, and the advanced index lies in
`[0, max 1 frameCount)`. -/
theorem C9_advance_total (a : Animation) (dt : ℚ) (hc : 0 ≤ a.current)
    (hfire : a.frameTime ≤ a.timer + dt) :
    0 < max 1 a.frameCount ∧ 0 ≤ (animStep dt a).current ∧
    (animStep dt a).current < max 1 a.frameCount := by
  have hpos : (0 : ℤ) < max 1 a.frameCount :=
    lt_of_lt_of_le one_pos (le_max_left 1 a.frameCount)
  refine ⟨hpos, ?_, ?_⟩ <;> simp only [animStep, if_pos hfire]
  · exact Int.tmod_nonneg _ (by omega)
  · exact Int.tmod_lt_of_pos _ hpos

/-- An animation state with a nonnegative current frame index, about to
advance. -/
def animPos : Animation :=
  { frameCount := 4, frameTime := 1/10, loop := true, current := 2, timer := 1/10 }

/-- C9 witness: the amended totality statement at a concrete state. -/
theorem C9_advance_total_witness :
    0 < max 1 animPos.frameCount ∧ 0 ≤ (animStep 0 animPos).current ∧
    (animStep 0 animPos).current < max 1 animPos.frameCount :=
  C9_advance_total animPos 0 (by decide) (by norm_num [animPos])

/- ------------------------- C6: animation over 21 fixed updates ------------------------- -/

/-- C6: an animated sprite with `frameCount = 4` and `frameTime = 0.1 s`
advances its current frame by exactly 3 over 21 fixed updates at
`dt = 1/60 s` (resets fire at steps 6, 12, 18), wrapping modulo 4, from
any starting frame index `c`. Each step adds `dt` to the timer and, on
reaching `frameTime`, zeroes the timer and advances the frame. -/
theorem C6_animation_21_steps (c : ℕ) :
    ((animStep (1/60))^[21]
      { frameCount := 4, frameTime := 1/10, loop := true,
        current := (c : ℤ), timer := 0 }).current
      = ((c : ℤ) + 3).tmod 4 := by
  have key : ∀ (m : ℕ), Int.tmod ((m : ℕ) : ℤ) 4 = ((m % 4 : ℕ) : ℤ) := fun m => by
    exact_mod_cast (Int.ofNat_tmod m 4).symm
  simp only [Function.iterate_succ, Function.iterate_zero, Function.comp_apply, id]
  norm_num [animStep]
  rw [show ((c : ℤ) + 1) = ((c + 1 : ℕ) : ℤ) by push_cast; ring, key,
    show ((((c+1) % 4 : ℕ) : ℤ) + 1) = (((c+1) % 4 + 1 : ℕ) : ℤ) by push_cast; ring, key,
    show (((((c+1) % 4 + 1) % 4 : ℕ) : ℤ) + 1) = ((((c+1) % 4 + 1) % 4 + 1 : ℕ) : ℤ) by
      push_cast; ring, key,
    show ((c : ℤ) + 3) = ((c + 3 : ℕ) : ℤ) by push_cast; ring, key]
  exact_mod_cast congrArg (Nat.cast : ℕ → ℤ) (by omega : (((c+1) % 4 + 1) % 4 + 1) % 4 = (c+3) % 4)

/- ------------------------- C1: axis tie-break ------------------------- -/

/-- C1 (counterexample): two intersecting 16×16 boxes whose X and Y
overlaps are both exactly 8. The claim says resolution happens along X,
but the strict `overlapX < overlapY` test fails on the tie, so the Y
branch runs: `x` is untouched, `vx` keeps its value 5, while `y` is
corrected and `vy` is zeroed (and the downward contact grounds body A). -/
theorem C1_counterexample :
    overlapX aaTie bbTie = overlapY aaTie bbTie ∧
    aabbIntersect aaTie bbTie = true ∧
    (resolvePair cDyn tOrigin (some pMove) cDyn tDiag none aaTie bbTie).atN.x = 0 ∧
    (resolvePair cDyn tOrigin (some pMove) cDyn tDiag none aaTie bbTie).atN.y = -4 ∧
    (resolvePair cDyn tOrigin (some pMove) cDyn tDiag none aaTie bbTie).apN =
      some { vx := 5, vy := 0, ax := 0, ay := 0, mass := 1, gravity := 900,
             onGround := true } := by
  refine ⟨?_, ?_, ?_, ?_, ?_⟩
  · norm_num [overlapX, overlapY, aaTie, bbTie, mkAABB, tOrigin, tDiag, cDyn, abs]
  · simp only [aabbIntersect, aaTie, bbTie, mkAABB, tOrigin, tDiag, cDyn]
    norm_num
  all_goals
    simp only [resolvePair, aaTie, bbTie, mkAABB, tOrigin, tDiag, cDyn, pMove]
    norm_num

/-- C1 (amended): on an exact overlap tie the Y axis wins (the strict
`<` favors Y): for every intersecting pair with `overlapX = overlapY`,
resolution occurs along the Y axis — both `x` positions are untouched,
both `vx` velocities are preserved, and present `vy` velocities are
zeroed. -/
theorem C1_tie_resolves_along_Y (ac : Collider) (ta : Transform) (ap : Option Physics)
    (bc : Collider) (tb : Transform) (bp : Option Physics) (aa bb : AABB)
    (_hint : aabbIntersect aa bb = true)
    (htie : overlapX aa bb = overlapY aa bb) :
    (resolvePair ac ta ap bc tb bp aa bb).atN.x = ta.x ∧
    (resolvePair ac ta ap bc tb bp aa bb).btN.x = tb.x ∧
    (resolvePair ac ta ap bc tb bp aa bb).apN.map Physics.vx = ap.map Physics.vx ∧
    (resolvePair ac ta ap bc tb bp aa bb).bpN.map Physics.vx = bp.map Physics.vx ∧
    (∀ p, (resolvePair ac ta ap bc tb bp aa bb).apN = some p → p.vy = 0) ∧
    (∀ p, (resolvePair ac ta ap bc tb bp aa bb).bpN = some p → p.vy = 0) := by
  simp only [overlapX, overlapY] at htie
  have hnot : ¬((aa.w + bb.w) / 2 - |bb.x + bb.w * (1 / 2) - (aa.x + aa.w * (1 / 2))| <
      (aa.h + bb.h) / 2 - |bb.y + bb.h * (1 / 2) - (aa.y + aa.h * (1 / 2))|) := by
    rw [htie]; exact lt_irrefl _
  simp only [resolvePair, if_neg hnot]
  refine ⟨?_, ?_, ?_, ?_, ?_, ?_⟩
  · split
    · rfl
    · split <;> rfl
  · split
    · rfl
    · split
      · rfl
      · split <;> rfl
  · cases ap <;> simp
  · cases bp <;> simp
  · cases ap <;> simp
  · cases bp <;> simp

/-- C1 witness: the amended tie-break statement at the concrete tied
pair. -/
theorem C1_tie_resolves_along_Y_witness :
    (resolvePair cDyn tOrigin (some pMove) cDyn tDiag none aaTie bbTie).atN.x = tOrigin.x ∧
    (resolvePair cDyn tOrigin (some pMove) cDyn tDiag none aaTie bbTie).btN.x = tDiag.x ∧
    (resolvePair cDyn tOrigin (some pMove) cDyn tDiag none aaTie bbTie).apN.map Physics.vx
      = (some pMove).map Physics.vx ∧
    (resolvePair cDyn tOrigin (some pMove) cDyn tDiag none aaTie bbTie).bpN.map Physics.vx
      = (none : Option Physics).map Physics.vx ∧
    (∀ p, (resolvePair cDyn tOrigin (some pMove) cDyn tDiag none aaTie bbTie).apN = some p →
      p.vy = 0) ∧
    (∀ p, (resolvePair cDyn tOrigin (some pMove) cDyn tDiag none aaTie bbTie).bpN = some p →
      p.vy = 0) :=
  C1_tie_resolves_along_Y cDyn tOrigin (some pMove) cDyn tDiag none aaTie bbTie
    (by simp only [aabbIntersect, aaTie, bbTie, mkAABB, tOrigin, tDiag, cDyn]; norm_num)
    (by norm_num [overlapX, overlapY, aaTie, bbTie, mkAABB, tOrigin, tDiag, cDyn, abs])

/- ------------------------- C7: static/static pairs ------------------------- -/

/-- C7: resolving an intersecting pair whose colliders are both static
leaves both transforms entirely unchanged, while the velocity along the
resolved axis (X iff `overlapX < overlapY`, else Y) of any physics
component present is still zeroed. -/
theorem C7_static_static (ac : Collider) (ta : Transform) (ap : Option Physics)
    (bc : Collider) (tb : Transform) (bp : Option Physics) (aa bb : AABB)
    (ha : ac.isStatic = true) (hb : bc.isStatic = true)
    (_hint : aabbIntersect aa bb = true) :
    (resolvePair ac ta ap bc tb bp aa bb).atN = ta ∧
    (resolvePair ac ta ap bc tb bp aa bb).btN = tb ∧
    (if overlapX aa bb < overlapY aa bb
      then (∀ p, (resolvePair ac ta ap bc tb bp aa bb).apN = some p → p.vx = 0) ∧
           (∀ p, (resolvePair ac ta ap bc tb bp aa bb).bpN = some p → p.vx = 0)
      else (∀ p, (resolvePair ac ta ap bc tb bp aa bb).apN = some p → p.vy = 0) ∧
           (∀ p, (resolvePair ac ta ap bc tb bp aa bb).bpN = some p → p.vy = 0)) := by
  simp only [resolvePair, overlapX, overlapY, ha, hb]
  split <;>
    refine ⟨rfl, rfl, ?_⟩ <;>
      simp_all

/-- C7 witness: the static/static statement at a concrete intersecting
pair. -/
theorem C7_static_static_witness :
    (resolvePair cStat tOrigin (some pMove) cStat tDiag none aaTie bbTie).atN = tOrigin ∧
    (resolvePair cStat tOrigin (some pMove) cStat tDiag none aaTie bbTie).btN = tDiag ∧
    (if overlapX aaTie bbTie < overlapY aaTie bbTie
      then (∀ p, (resolvePair cStat tOrigin (some pMove) cStat tDiag none aaTie bbTie).apN
              = some p → p.vx = 0) ∧
           (∀ p, (resolvePair cStat tOrigin (some pMove) cStat tDiag none aaTie bbTie).bpN
              = some p → p.vx = 0)
      else (∀ p, (resolvePair cStat tOrigin (some pMove) cStat tDiag none aaTie bbTie).apN
              = some p → p.vy = 0) ∧
           (∀ p, (resolvePair cStat tOrigin (some pMove) cStat tDiag none aaTie bbTie).bpN
              = some p → p.vy = 0)) :=
  C7_static_static cStat tOrigin (some pMove) cStat tDiag none aaTie bbTie
    (by rfl) (by rfl)
    (by simp only [aabbIntersect, aaTie, bbTie, mkAABB, tOrigin, tDiag, cDyn]; norm_num)

/- ------------------------- C5: emission and pool exhaustion ------------------------- -/

/-- `findFree` fails exactly when the pool has no dead slot. -/
theorem findFree_none_iff (pool : List Particle) :
    findFree pool = none ↔ countDead pool = 0 := by
  induction pool with
  | nil => simp [findFree, countDead]
  | cons p ps ih =>
    by_cases h : p.life ≤ p.age
    · simp [findFree, h, countDead, List.countP_cons, isLive, not_lt.mpr h]
    · have hl : isLive p = true := by simp [isLive, lt_of_not_le h]
      simp [findFree, h, countDead, List.countP_cons, hl] at ih ⊢
      exact ih

/-- A successful `findFree` returns the index of a dead slot. -/
theorem findFree_some (pool : List Particle) (idx : ℕ)
    (h : findFree pool = some idx) :
    ∃ p, pool[idx]? = some p ∧ p.life ≤ p.age := by
  induction pool generalizing idx with
  | nil => simp [findFree] at h
  | cons p ps ih =>
    by_cases hd : p.life ≤ p.age
    · simp [findFree, hd] at h
      subst h
      exact ⟨p, by simp, hd⟩
    · simp [findFree, hd] at h
      obtain ⟨j, hj, rfl⟩ := h
      obtain ⟨q, hq, hqd⟩ := ih j hj
      exact ⟨q, by simpa using hq, hqd⟩

/-- Overwriting one slot exchanges its contribution to a `countP`. -/
theorem countP_set_of {α : Type} (q : α → Bool) (l : List α) (i : ℕ) (a p : α)
    (h : l[i]? = some p) :
    (l.set i a).countP q + (if q p then 1 else 0)
      = l.countP q + (if q a then 1 else 0) := by
  induction l generalizing i with
  | nil => simp at h
  | cons b bs ih =>
    cases i with
    | zero =>
      simp at h
      subst h
      simp [List.countP_cons]
      omega
    | succ j =>
      simp at h
      have hih := ih j h
      simp [List.set, List.countP_cons]
      omega

/-- Each successful emission revives exactly one dead slot, so `emit`
creates `min n F` live particles where `F` counts the dead slots. -/
theorem emit_countLive (vel : ℕ → ℚ × ℚ) (rnd : ℕ → ℕ) (x y : ℚ) :
    ∀ (n k : ℕ) (pool : List Particle),
      countLive (emit vel rnd x y n k pool) = countLive pool + min n (countDead pool) := by
  intro n
  induction n with
  | zero => intro k pool; simp [emit]
  | succ n ih =>
    intro k pool
    rw [emit]
    cases hf : findFree pool with
    | none =>
      rw [findFree_none_iff] at hf
      simp [hf]
    | some idx =>
      obtain ⟨p, hp, hpd⟩ := findFree_some pool idx hf
      have hpdead : isLive p = false := by simp [isLive, not_lt.mpr hpd]
      have hnew : isLive (emitParticle vel rnd x y k) = true := by
        simp [isLive, emitParticle]
        positivity
      have hlive := countP_set_of isLive pool idx (emitParticle vel rnd x y k) p hp
      have hdead := countP_set_of (fun q => !isLive q) pool idx (emitParticle vel rnd x y k) p hp
      rw [hpdead] at hlive
      simp only [hnew] at hlive
      simp only [hpdead, hnew] at hdead
      have h1 : countLive (pool.set idx (emitParticle vel rnd x y k)) = countLive pool + 1 := by
        simpa [countLive] using hlive
      have h2 : countDead (pool.set idx (emitParticle vel rnd x y k)) + 1 = countDead pool := by
        simpa [countDead] using hdead
      rw [ih (k+1) (pool.set idx (emitParticle vel rnd x y k)), h1]
      omega

/-- `emit` never changes the pool's size. -/
theorem emit_length (vel : ℕ → ℚ × ℚ) (rnd : ℕ → ℕ) (x y : ℚ) :
    ∀ (n k : ℕ) (pool : List Particle),
      (emit vel rnd x y n k pool).length = pool.length := by
  intro n
  induction n with
  | zero => intro k pool; simp [emit]
  | succ n ih =>
    intro k pool
    rw [emit]
    cases hf : findFree pool with
    | none => rfl
    | some idx => rw [ih]; simp

/-- C5: emitting `n` particles into a pool with `F` dead slots, `F < n`,
turns exactly the `F` dead slots live (dropping the other `n - F`
requests); emitting into a pool with no dead slot creates none; and the
pool never grows. -/
theorem C5_emit_pool_exhaustion (vel : ℕ → ℚ × ℚ) (rnd : ℕ → ℕ)
    (x y : ℚ) (n k : ℕ) (pool : List Particle) :
    (countDead pool < n →
      countLive (emit vel rnd x y n k pool) = countLive pool + countDead pool) ∧
    (countDead pool = 0 → countLive (emit vel rnd x y n k pool) = countLive pool) ∧
    (emit vel rnd x y n k pool).length = pool.length := by
  have hc := emit_countLive vel rnd x y n k pool
  refine ⟨fun h => ?_, fun h => ?_, emit_length vel rnd x y n k pool⟩
  · rw [hc]; omega
  · rw [hc]; omega

/-- Trivial velocity stream for witnesses. -/
def vel0 : ℕ → ℚ × ℚ := fun _ => (0, 0)

/-- Trivial `rand()` stream for witnesses. -/
def rnd0 : ℕ → ℕ := fun _ => 0

/-- C5 witness: a fully live one-slot pool absorbs an `emit` of one
particle without creating anything or growing. -/
theorem C5_emit_pool_exhaustion_witness :
    countLive (emit vel0 rnd0 3 4 1 0 [pLive]) = countLive [pLive] + countDead [pLive] ∧
    countLive (emit vel0 rnd0 3 4 1 0 [pLive]) = countLive [pLive] ∧
    (emit vel0 rnd0 3 4 1 0 [pLive]).length = [pLive].length :=
  ⟨(C5_emit_pool_exhaustion vel0 rnd0 3 4 1 0 [pLive]).1
      (by norm_num [countDead, List.countP, List.countP.go, isLive, pLive]),
   (C5_emit_pool_exhaustion vel0 rnd0 3 4 1 0 [pLive]).2.1
      (by norm_num [countDead, List.countP, List.countP.go, isLive, pLive]),
   (C5_emit_pool_exhaustion vel0 rnd0 3 4 1 0 [pLive]).2.2⟩

/- ------------------------- C2: onGround across a collision pass ------------------------- -/

/-- `resolveCollision` maps entity A's physics through a function that
never clears `onGround`: the X branch leaves the flag alone, the Y
branch either sets it `true` or keeps it. -/
theorem resolvePair_apN_mono (ac : Collider) (ta : Transform) (ap : Option Physics)
    (bc : Collider) (tb : Transform) (bp : Option Physics) (aa bb : AABB)
    (p : Physics) (hap : ap = some p) :
    ∃ q, (resolvePair ac ta ap bc tb bp aa bb).apN = some q ∧
      (p.onGround = true → q.onGround = true) := by
  subst hap
  simp only [resolvePair]
  split
  · exact ⟨_, rfl, fun hg => hg⟩
  · refine ⟨_, rfl, fun hg => ?_⟩
    dsimp only
    split <;> simp [hg]

/-- Same for entity B's physics. -/
theorem resolvePair_bpN_mono (ac : Collider) (ta : Transform) (ap : Option Physics)
    (bc : Collider) (tb : Transform) (bp : Option Physics) (aa bb : AABB)
    (p : Physics) (hbp : bp = some p) :
    ∃ q, (resolvePair ac ta ap bc tb bp aa bb).bpN = some q ∧
      (p.onGround = true → q.onGround = true) := by
  subst hbp
  simp only [resolvePair]
  split
  · exact ⟨_, rfl, fun hg => hg⟩
  · refine ⟨_, rfl, fun hg => ?_⟩
    dsimp only
    split <;> simp [hg]

/-- One pair resolution never clears any entity's `onGround` flag. -/
theorem resolveCollision_onGround_mono (i j : ℕ) (aa bb : AABB) (w : List Entity) (k : ℕ)
    (h : onGroundAt w k = true) : onGroundAt (resolveCollision i j aa bb w) k = true := by
  unfold resolveCollision
  split
  case _ ea eb hi hj =>
    split
    case _ ac ta bc tb hac hat hbc hbt =>
      by_cases hkj : k = j
      · subst hkj
        have hlen : k < w.length := (List.getElem?_eq_some_iff.mp hj).1
        simp only [onGroundAt, hj] at h
        cases hbp : eb.physics with
        | none => rw [hbp] at h; exact absurd h (by simp)
        | some pb =>
          rw [hbp] at h
          obtain ⟨qb, hq, hmono⟩ :=
            resolvePair_bpN_mono ac ta ea.physics bc tb (some pb) aa bb pb rfl
          simp only [onGroundAt, List.getElem?_set, List.length_set, if_pos rfl, hlen,
            if_true, hq]
          exact hmono h
      · have hjk : j ≠ k := fun hh => hkj hh.symm
        by_cases hki : k = i
        · subst hki
          have hlen : k < w.length := (List.getElem?_eq_some_iff.mp hi).1
          simp only [onGroundAt, hi] at h
          cases hap : ea.physics with
          | none => rw [hap] at h; exact absurd h (by simp)
          | some pa =>
            rw [hap] at h
            obtain ⟨qa, hq, hmono⟩ :=
              resolvePair_apN_mono ac ta (some pa) bc tb eb.physics aa bb pa rfl
            simp only [onGroundAt, List.getElem?_set, List.length_set, if_neg hjk,
              if_pos rfl, hlen, if_true, hq]
            exact hmono h
        · have hik : i ≠ k := fun hh => hki hh.symm
          simp only [onGroundAt, List.getElem?_set, if_neg hjk, if_neg hik]
          simpa only [onGroundAt] using h
    case _ => exact h
  case _ => exact h

/-- One inner-loop step never clears any `onGround` flag. -/
theorem innerStep_onGround_mono (i : ℕ) (aa : AABB) (w : List Entity) (j : ℕ) (k : ℕ)
    (h : onGroundAt w k = true) : onGroundAt (innerStep i aa w j) k = true := by
  unfold innerStep
  split
  case _ eb hj =>
    split
    case _ bc tb hbc hbt =>
      dsimp only
      split
      · exact resolveCollision_onGround_mono i j _ _ w k h
      · exact h
    case _ => exact h
  case _ => exact h

/-- One outer-loop step never clears any `onGround` flag. -/
theorem outerStep_onGround_mono (w : List Entity) (i : ℕ) (k : ℕ)
    (h : onGroundAt w k = true) : onGroundAt (outerStep w i) k = true := by
  unfold outerStep
  split
  case _ ea hi =>
    split
    case _ ac ta hac hat =>
      exact foldl_invariant (fun s => onGroundAt s k = true) _ _ w
        (fun s j hs => innerStep_onGround_mono i _ s j k hs) h
    case _ => exact h
  case _ => exact h

/-- A lone grounded dynamic body: it has a collider and a transform but
nothing to collide with, so a collision pass gives it no contact. -/
def eGround : Entity :=
  { transform := some tOrigin,
    physics := some { pMove with onGround := true },
    collider := some cDyn, anim := none }

/-- C2 (counterexample): a collision pass over a world whose only body
is already flagged `onGround := true` and touches nothing leaves the
flag `true`. The claim says the flag defaults to false at the start of
each pass and ends true exactly for bodies that received a
downward-facing contact — this body received none, so the claim
predicts `false`, but no code in `collisionSolve`, `resolveCollision`
or `fixedUpdate` ever resets the flag. -/
theorem C2_counterexample :
    onGroundAt [eGround] 0 = true ∧
    collisionSolve [eGround] = [eGround] ∧
    onGroundAt (collisionSolve [eGround]) 0 = true := by
  refine ⟨by simp [onGroundAt, eGround], ?_, ?_⟩ <;>
    · simp only [collisionSolve, outerStep, innerStep, eGround, List.range_succ,
        List.range_zero, List.nil_append, List.foldl_cons, List.foldl_nil,
        List.length_cons, List.length_nil]
      norm_num [List.range', onGroundAt, pMove]

/-- C2 (amended): the collision pass never clears `onGround`: every
body whose flag is `true` before the pass still has it `true` after;
the pass only ever *sets* the flag (on a downward-facing contact in
`resolveCollision`'s Y branch). The flag is cleared elsewhere (e.g. by
the demo jump script), not by the pass. -/
theorem C2_onGround_never_cleared (w : List Entity) (k : ℕ)
    (h : onGroundAt w k = true) : onGroundAt (collisionSolve w) k = true :=
  foldl_invariant (fun s => onGroundAt s k = true) _ _ w
    (fun s i hs => outerStep_onGround_mono s i k hs) h

/-- C2 witness: the never-cleared statement at the lone grounded body. -/
theorem C2_onGround_never_cleared_witness :
    onGroundAt (collisionSolve [eGround]) 0 = true :=
  C2_onGround_never_cleared [eGround] 0 (by simp [onGroundAt, eGround])

/- ------------------------- C3: accumulator clamp bounds the catch-up ------------------------- -/

/-- An accumulator below `(n+1) · fixedDt` drives at most `n` fixed
updates, whatever the state and update function. -/
theorem fixedLoop_count_le {α : Type} (n : ℕ) :
    ∀ (a : ℚ) (f : α → α) (s : α), a < ((n : ℚ) + 1) * fixedDt → (fixedLoop f a s).1 ≤ n := by
  induction n with
  | zero =>
    intro a f s h
    rw [fixedLoop, dif_neg (by rw [not_le]; simpa using h)]
  | succ n ih =>
    intro a f s h
    rw [fixedLoop]
    by_cases hc : fixedDt ≤ a
    · rw [dif_pos hc]
      have hlt : a - fixedDt < ((n : ℚ) + 1) * fixedDt := by
        push_cast at h
        have heq : ((n : ℚ) + 1 + 1) * fixedDt - fixedDt = ((n : ℚ) + 1) * fixedDt := by ring
        linarith [h, heq]
      exact Nat.succ_le_succ (ih (a - fixedDt) f (f s) hlt)
    · rw [dif_neg hc]
      exact Nat.zero_le _

/-- An accumulator of exactly `n · fixedDt` drives exactly `n` fixed
updates and ends at zero. -/
theorem fixedLoop_exact {α : Type} (f : α → α) :
    ∀ (n : ℕ) (s : α), fixedLoop f ((n : ℚ) * fixedDt) s = (n, 0, f^[n] s) := by
  intro n
  induction n with
  | zero =>
    intro s
    rw [fixedLoop, dif_neg (by norm_num [fixedDt])]
    norm_num
  | succ n ih =>
    intro s
    have harg : ((n + 1 : ℕ) : ℚ) * fixedDt - fixedDt = (n : ℚ) * fixedDt := by
      push_cast; ring
    have hone : (1 : ℚ) ≤ ((n + 1 : ℕ) : ℚ) := by
      exact_mod_cast Nat.succ_le_succ (Nat.zero_le n)
    rw [fixedLoop, dif_pos (le_mul_of_one_le_left (by norm_num [fixedDt]) hone), harg, ih]
    simp [Function.iterate_succ_apply]

/-- C3: the accumulator entering a frame's catch-up loop is clamped to
`maxAccum = 0.25 s`, so no frame ever runs more than 15 fixed updates
of `fixedDt = 1/60 s`, whatever state the updates act on; and a frame
whose elapsed real time is `0.5 s` (landing on the clamp) runs exactly
15. -/
theorem C3_accumulator_clamp :
    (∀ (acc : ℚ), clampAccum acc ≤ maxAccum) ∧
    (∀ {α : Type} (f : α → α) (s : α) (acc elapsed : ℚ),
      (fixedLoop f (clampAccum (acc + elapsed)) s).1 ≤ 15) ∧
    (∀ {α : Type} (f : α → α) (s : α),
      (fixedLoop f (clampAccum (0 + 1/2)) s).1 = 15) := by
  have hle : ∀ (acc : ℚ), clampAccum acc ≤ maxAccum := by
    intro acc
    rw [clampAccum]
    split
    · exact le_refl _
    · exact le_of_not_lt (by assumption)
  refine ⟨hle, ?_, ?_⟩
  · intro α f s acc elapsed
    apply fixedLoop_count_le 15
    calc clampAccum (acc + elapsed) ≤ maxAccum := hle _
      _ < ((15 : ℚ) + 1) * fixedDt := by norm_num [maxAccum, fixedDt]
  · intro α f s
    have hclamp : clampAccum (0 + 1/2) = ((15 : ℕ) : ℚ) * fixedDt := by
      norm_num [clampAccum, maxAccum, fixedDt]
    rw [hclamp, fixedLoop_exact]

/- ------------------------- C4: camera smoothing schedule ------------------------- -/

/-- Transform of the tracked demo entity: screen 1280×720 makes its
camera target exactly `(100, 100)`. -/
def tTrack : Transform := { x := 740, y := 460, rot := 0, sx := 1, sy := 1 }

/-- A motionless tracked entity (physics at rest, zero gravity, no
collider), so fixed updates leave the world unchanged. -/
def eTracked : Entity :=
  { transform := some tTrack, physics := some pStill, collider := none, anim := none }

/-- Engine state with one tracked entity, camera at the origin and an
empty accumulator. -/
def camDemo : EngineState :=
  { world := [eTracked], particles := [], camX := 0, camY := 0,
    accumulator := 0, screenW := 1280, screenH := 720 }

/-- A fixed update leaves the motionless demo state unchanged. -/
theorem fixedUpdate_camDemo : fixedUpdate fixedDt camDemo = camDemo := by
  simp only [fixedUpdate, camDemo, eTracked, tTrack, pStill, fixedDt,
    List.map_cons, List.map_nil, integrate, animPhase, updateParticles,
    collisionSolve, outerStep, innerStep, List.range_succ, List.range_zero,
    List.nil_append, List.foldl_cons, List.foldl_nil, List.length_cons, List.length_nil]
  norm_num [List.range', animPhase]

/-- C4 (counterexample): a frame whose elapsed time is `0` runs zero
fixed updates, yet the camera still moves from `(0,0)` to `(12,12)`:
the smoothing runs in `render()` once per wall-clock frame, not once
per fixed update as claimed (which would leave the camera at `(0,0)`
here). -/
theorem C4_counterexample :
    camDemo.camX = 0 ∧ camDemo.camY = 0 ∧
    frameFixedCount 0 0 = 0 ∧
    (frame 0 camDemo).camX = 12 ∧ (frame 0 camDemo).camY = 12 := by
  have hacc : clampAccum (camDemo.accumulator + 0) = 0 := by
    norm_num [camDemo, clampAccum, maxAccum]
  have hloop : fixedLoop (fixedUpdate fixedDt) (0 : ℚ) camDemo = (0, 0, camDemo) := by
    rw [fixedLoop, dif_neg (by norm_num [fixedDt])]
  refine ⟨by norm_num [camDemo], by norm_num [camDemo], ?_, ?_, ?_⟩
  · have hacc2 : clampAccum (0 + 0) = (0 : ℚ) := by norm_num [clampAccum, maxAccum]
    rw [frameFixedCount, hacc2, fixedLoop, dif_neg (by norm_num [fixedDt])]
  all_goals
    simp only [frame, hacc, hloop]
    simp only [computeCamera, findTracked, camDemo, eTracked, tTrack, pStill]
    norm_num

/-- C4 (amended): the camera is exponentially smoothed toward its
target once per *rendered frame* (inside `render()`), with hard-coded
factor `0.12`; the target is the first entity (in store order) with
both Physics and Transform, minus half the viewport. One frame of the
demo state — running exactly one fixed update — takes the camera from
`(0,0)` to `(12,12)` for target `(100,100)`; and with no trackable
entity, `computeCamera` holds the previous position. -/
theorem C4_camera_per_frame :
    ((frame (1/60) camDemo).camX = 12 ∧ (frame (1/60) camDemo).camY = 12) ∧
    (∀ (w : List Entity) (sw sh cx cy : ℚ) (t : Transform), findTracked w = some t →
      computeCamera w sw sh cx cy =
        (cx + (t.x - sw/2 - cx) * (12/100), cy + (t.y - sh/2 - cy) * (12/100))) ∧
    (∀ (w : List Entity) (sw sh cx cy : ℚ), findTracked w = none →
      computeCamera w sw sh cx cy = (cx, cy)) := by
  refine ⟨?_, ?_, ?_⟩
  · have hacc : clampAccum (camDemo.accumulator + 1/60) = ((1 : ℕ) : ℚ) * fixedDt := by
      norm_num [camDemo, clampAccum, maxAccum, fixedDt]
    have hloop : fixedLoop (fixedUpdate fixedDt) (((1 : ℕ) : ℚ) * fixedDt) camDemo
        = (1, 0, camDemo) := by
      rw [fixedLoop_exact]
      simp [fixedUpdate_camDemo]
    constructor <;>
      · simp only [frame, hacc, hloop]
        simp only [computeCamera, findTracked, camDemo, eTracked, tTrack, pStill]
        norm_num
  · intro w sw sh cx cy t ht
    simp only [computeCamera, ht]
  · intro w sw sh cx cy ht
    simp only [computeCamera, ht]

/-- C4 witness: with no trackable entity the camera keeps its position,
at a concrete empty world. -/
theorem C4_camera_per_frame_witness :
    computeCamera [] 1280 720 5 7 = (5, 7) :=
  C4_camera_per_frame.2.2 [] 1280 720 5 7 rfl

end RAGE9
